import Mathlib

/-!
Verification development for the product-listing scraper (`scrape.py`).

The Python source is shallowly embedded: pure text manipulation is modelled
over `List Char` / `String`, HTTP traffic and HTML documents are supplied as
explicit environment functions, exceptions are `Except Unit`, and Python
`float` values parsed from decimal text are modelled exactly as rationals.
Logging, sleeping and timing are dropped; they carry no data flow.
-/

/-! ## Character and string utilities

Python string primitives (`str.lower`, `str.strip`, `re.sub("\\s+", ...)`,
substring tests, splitting) are re-implemented over `List Char` so that every
definition evaluates inside the kernel.  ASCII case folding models Python
`str.lower` (the Arabic letters appearing in the defaults have no case), and
the whitespace class models Python's default `\s` / `str.strip` class
(exotic Unicode whitespace is not modelled).
-/

def charLower (c : Char) : Char :=
  if 'A' ≤ c ∧ c ≤ 'Z' then Char.ofNat (c.toNat + 32) else c

def charLt (a b : Char) : Bool := a.toNat < b.toNat

def lexLt : List Char → List Char → Bool
  | [], [] => false
  | [], _ :: _ => true
  | _ :: _, [] => false
  | a :: as, b :: bs => charLt a b || (a = b && lexLt as bs)

def strLtB (a b : String) : Bool := lexLt a.data b.data

/-- Sort key for one `sort_values` column over the re-read history frame
(lines 259-262): an empty field was re-read as NaN, and pandas sorts NaN
rows last; every real string compares by code point.  The tag character
orders every real string before the NaN stand-in. -/
def nanKey (s : String) : List Char := if s = "" then ['\x01'] else '\x00' :: s.data

def strLtN (a b : String) : Bool := lexLt (nanKey a) (nanKey b)

def strLeN (a b : String) : Bool := !(strLtN b a)

def isPyWS (c : Char) : Bool :=
  c = ' ' || c = '\t' || c = '\n' || c = '\x0d' || c = '\x0b' || c = '\x0c'

def prefixB : List Char → List Char → Bool
  | [], _ => true
  | _ :: _, [] => false
  | a :: as, b :: bs => a = b && prefixB as bs

def isSubstrB (n : List Char) : List Char → Bool
  | [] => n.isEmpty
  | c :: t => prefixB n (c :: t) || isSubstrB n t

def containsCI (needle hay : String) : Bool :=
  isSubstrB (needle.data.map charLower) (hay.data.map charLower)

def breakFirst (sep : List Char) : List Char → List Char × Option (List Char)
  | [] => ([], none)
  | c :: t =>
    if prefixB sep (c :: t) then ([], some ((c :: t).drop sep.length))
    else
      let r := breakFirst sep t
      (c :: r.1, r.2)

def splitAllGo (sep : List Char) : Nat → List Char → List (List Char)
  | 0, s => [s]
  | fuel + 1, s =>
    match breakFirst sep s with
    | (pre, none) => [pre]
    | (pre, some rest) => pre :: splitAllGo sep fuel rest

def splitAll (sep : List Char) (s : List Char) : List (List Char) :=
  splitAllGo sep (s.length + 1) s

def cutFirst (sep s : String) : String × Option String :=
  match breakFirst sep.data s.data with
  | (p, none) => (String.mk p, none)
  | (p, some r) => (String.mk p, some (String.mk r))

def wordsGo (cur : List Char) : List Char → List (List Char)
  | [] => if cur = [] then [] else [cur.reverse]
  | c :: t =>
    if isPyWS c then
      (if cur = [] then wordsGo [] t else cur.reverse :: wordsGo [] t)
    else wordsGo (c :: cur) t

def wordsOf (s : List Char) : List (List Char) := wordsGo [] s

def joinSpace : List (List Char) → List Char
  | [] => []
  | [w] => w
  | w :: ws => w ++ ' ' :: joinSpace ws

/-- Model of `clean_text` applied to an already-present string:
`re.sub(r"\s+", " ", s.strip())` collapses every whitespace run to a single
space and trims both ends. -/
def collapseWS (s : String) : String := String.mk (joinSpace (wordsOf s.data))

/-- `clean_text(s)`: Python treats a `None`/empty argument via `(s or "")`. -/
def clean_text (s : Option String) : String := collapseWS (s.getD "")

/-- Python truthiness `a or b` for strings. -/
def pyOrS (a b : String) : String := if a = "" then b else a

/-- Python truthiness `a or b` for ints (`int(max_pages or 1)`): `0` is falsy. -/
def pyOrInt (a b : Int) : Int := if a = 0 then b else a

/-- Python truthiness of an optional string: `None` and `""` are falsy. -/
def pyTruthyOpt (o : Option String) : Bool :=
  match o with
  | none => false
  | some s => s != ""

def natOfDigits (s : List Char) : Nat :=
  s.foldl (fun n c => 10 * n + (c.toNat - '0'.toNat)) 0

def patCharMatch (p c : Char) : Bool := p = '.' || charLower p = charLower c

def matchLitAt : List Char → List Char → Bool
  | [], _ => true
  | _ :: _, [] => false
  | p :: ps, c :: cs => patCharMatch p c && matchLitAt ps cs

def altFind (pats : List (List Char)) (s : List Char) : Option (List Char) :=
  pats.find? (fun p => matchLitAt p s)

def altSearch (pats : List (List Char)) : List Char → Option String
  | [] =>
    match altFind pats [] with
    | some _ => some ""
    | none => none
  | c :: cs =>
    match altFind pats (c :: cs) with
    | some p => some (String.mk ((c :: cs).take p.length))
    | none => altSearch pats cs

def regexSearchCI (pattern text : String) : Option String :=
  altSearch (splitAll ['|'] pattern.data) text.data

def regexMetaChars : List Char :=
  ['(', ')', '[', ']', '\x7b', '\x7d', '*', '+', '?', '\x5c', '^', '$']

/-- Pattern-compilation model: `re.compile` succeeds and the alternation
semantics above applies exactly to patterns free of these metacharacters. -/
def pyRegexWF (p : String) : Bool :=
  p.data.all (fun c => !(regexMetaChars.contains c))

/-! ## `parse_price` -/

def isNumRunChar (c : Char) : Bool := c.isDigit || c = ',' || c = '.' || isPyWS c

/-- First match of `re.search(r"(\d[\d,.\s]*)", text)`: the first digit and the
maximal following run of digits, commas, dots and whitespace. -/
def numRun : List Char → Option (List Char)
  | [] => none
  | c :: t => if c.isDigit then some (c :: t.takeWhile isNumRunChar) else numRun t

def ratOfRun (s : List Char) : ℚ :=
  let ip := s.takeWhile (fun c => c != '.')
  let frac := (s.dropWhile (fun c => c != '.')).drop 1
  (natOfDigits (ip ++ frac) : ℚ) / (10 : ℚ) ^ frac.length

/-- Model of Python `float()` on the post-strip numeric run (digits and dots,
starting with a digit): it succeeds exactly when at most one dot remains, and
the parsed decimal is modelled as an exact rational. -/
def pyFloatOfRun (s : List Char) : Option ℚ :=
  if s.any (·.isDigit) ∧ s.all (fun c => c.isDigit || c = '.') ∧ s.count '.' ≤ 1 then
    some (ratOfRun s)
  else none

def DEFAULT_CURRENCY_HINT : String := "EGP|ج.م|LE|جنيه"

/-- `parse_price(raw, currency_hint)` from `scrape.py` lines 46-60.
`raw = None` short-circuits to `(None, None, "")`; otherwise the text is
normalized, the currency pattern is searched case-insensitively (empty string
when absent), and the first numeric run — commas and spaces removed — is
parsed as a float, `None` on failure. -/
def parse_price (raw : Option String) (currency_hint : String := DEFAULT_CURRENCY_HINT) :
    Option ℚ × Option String × String :=
  match raw with
  | none => (none, none, "")
  | some r =>
    let raw_text := collapseWS r
    let currency := some ((regexSearchCI currency_hint raw_text).getD "")
    let val :=
      match numRun raw_text.data with
      | none => none
      | some run => pyFloatOfRun (run.filter (fun c => c != ',' && c != ' '))
    (val, currency, raw_text)

/-! ## Fetch reliability layer (`http_get`, lines 82-103)

HTTP traffic is an environment `Nat → String → HttpOutcome`: the outcome of
attempt number `a` when issued with a given `User-Agent` header.  `HttpOutcome.exn`
is a transport-level exception; otherwise a status code and body text arrive.
Backoff sleeps and warning logs carry no data and are dropped. -/

def DESKTOP_UA : String :=
  "Mozilla/5.0 (Windows NT 10.0; Win64; x64) AppleWebKit/537.36 (KHTML, like Gecko) Chrome/124 Safari/537.36"

def MOBILE_UA : String :=
  "Mozilla/5.0 (Linux; Android 12; Pixel 5) AppleWebKit/537.36 (KHTML, like Gecko) Chrome/124 Mobile Safari/537.36"

inductive HttpOutcome where
  | exn : HttpOutcome
  | resp (status : Int) (body : String) : HttpOutcome
deriving DecidableEq

structure HttpResp where
  status : Int
  body : String
deriving DecidableEq

def BOT_SIGNALS : List String :=
  ["Just a moment", "cf-browser-verification", "captcha", "Access Denied"]

/-- `any(sig.lower() in r.text.lower() for sig in bot_signals)`. -/
def isBotWall (body : String) : Bool :=
  BOT_SIGNALS.any (fun sig => containsCI sig body)

/-- The `User-Agent` header sent on a given attempt: the mobile string is
substituted from attempt index 2 on when the mobile fallback is enabled
(`if attempt >= 2 and mobile_fallback`). -/
def uaFor (attempt : Nat) (mobile_fallback : Bool) : String :=
  if 2 ≤ attempt ∧ mobile_fallback then MOBILE_UA else DESKTOP_UA

/-- Lines 90-99: an attempt's outcome is usable exactly when it is a status-200
response with a non-empty body that does not trip the bot-wall detector;
every other outcome falls through to the next attempt. -/
def usableResp (o : HttpOutcome) : Option HttpResp :=
  match o with
  | HttpOutcome.exn => none
  | HttpOutcome.resp st body =>
    if st = 200 ∧ body ≠ "" then
      (if isBotWall body then none else some ⟨st, body⟩)
    else none

def httpGo (env : Nat → String → HttpOutcome) (mf : Bool) : Nat → Nat → Option HttpResp
  | _, 0 => none
  | attempt, rem + 1 =>
    match usableResp (env attempt (uaFor attempt mf)) with
    | some r => some r
    | none => httpGo env mf (attempt + 1) rem

/-- `http_get(session, url, headers, retries=4, backoff=2, mobile_fallback=True)`:
up to `retries` attempts; after exhausting them the function returns its
never-reassigned `last = None`. -/
def http_get (env : Nat → String → HttpOutcome) (retries : Nat := 4) (mf : Bool := true) :
    Option HttpResp :=
  httpGo env mf 0 retries

/-! ## HTML document model

A fetched page body is interpreted by an environment `Dom`: CSS selection over
a page body or scoped to an element (elements are opaque ids).  `Except.error ()`
models `soupsieve` raising on a syntactically invalid selector. -/

structure Dom where
  select : String → String → Except Unit (List Nat)
  subOne : Nat → String → Except Unit (Option Nat)
  textOf : Nat → String
  attrOf : Nat → String → Option String

/-- `soup.select(sel)` wrapped in the `try/except` of `get_cards`: an invalid
selector is treated as zero matches. -/
def selOk (d : Dom) (body sel : String) : List Nat :=
  match d.select body sel with
  | Except.ok cs => cs
  | Except.error _ => []

/-! ## URL resolution (`abs_url`, lines 37-41)

`urllib.parse.urljoin` is modelled for the common shapes (absolute http(s)
targets, host-absolute paths, relative paths); dot-segment normalization and
percent-encoding are not modelled.  `urljoin` returns the base when the target
is falsy, which is how `abs_url(base, None)` behaves. -/

def hostPart (b : String) : String :=
  match cutFirst "://" b with
  | (pre, some rest) => pre ++ "://" ++ (cutFirst "/" rest).1
  | (_, none) => ""

def upToLastSlash (b : String) : String :=
  let cs := b.data
  String.mk (cs.take (cs.length - (cs.reverse.takeWhile (fun c => c != '/')).length))

def pyUrljoin (base u : String) : String :=
  if base = "" then u
  else if prefixB "http://".data u.data || prefixB "https://".data u.data then u
  else if prefixB "/".data u.data then hostPart base ++ u
  else upToLastSlash base ++ u

def abs_url (base : String) (u : Option String) : String :=
  match u with
  | none => base
  | some s => if s = "" then base else pyUrljoin base s

/-! ## `pick_attr` (lines 62-77) -/

/-- `pick_attr(el, selector, base_url, explicit_attr)`: empty selector yields
`None`; a selector containing `"@href"` is split at its first `@` into a
selector and an attribute name; an attribute named `href` is resolved against
the base URL; otherwise the element's text is returned.  Selector evaluation
happens without a `try`, so an invalid selector propagates. -/
def pick_attr (d : Dom) (el : Option Nat) (selector : String) (base_url : String)
    (explicit_attr : Option String) : Except Unit (Option String) :=
  if selector = "" then Except.ok none
  else
    let sa : String × Option String :=
      if isSubstrB "@href".data selector.data then
        let c := cutFirst "@" selector
        (c.1, some (c.2.getD ""))
      else (selector, explicit_attr)
    match el with
    | none => Except.ok none
    | some e =>
      match d.subOne e sa.1 with
      | Except.error u => Except.error u
      | Except.ok none => Except.ok none
      | Except.ok (some t) =>
        match sa.2 with
        | some a =>
          if a = "href" then Except.ok (some (abs_url base_url (d.attrOf t a)))
          else Except.ok (d.attrOf t a)
        | none => Except.ok (some (d.textOf t))

/-! ## Card resolution (`get_cards`, lines 105-122) -/

def DEFAULT_LIST_SELECTORS : List String :=
  ["ul.products li.product",
   "li.product",
   "article.prd",
   ".product-layout",
   ".product-thumb",
   ".product-card",
   ".product-item",
   "li.product-item"]

def firstNonEmptyCards (d : Dom) (body : String) : List String → List Nat
  | [] => []
  | s :: rest =>
    let cs := selOk d body s
    if cs = [] then firstNonEmptyCards d body rest else cs

def defaultCards (d : Dom) (body : String) : List Nat :=
  firstNonEmptyCards d body DEFAULT_LIST_SELECTORS

/-- `get_cards(soup, list_selector, url, site_name)`: the explicit selector is
tried under `try/except` (an invalid or unmatched selector leaves `cards`
empty), then the default selector list is scanned for the first selector with
at least one match. -/
def get_cards (d : Dom) (body : String) (list_selector : String) : List Nat :=
  let primary := if list_selector ≠ "" then selOk d body list_selector else []
  if primary = [] then defaultCards d body else primary

/-! ## Product records and status classification -/

structure ProductRecord where
  timestamp_iso : String
  site_name : String
  product_name : String
  sku : String
  product_url : String
  status : String
  price_value : Option ℚ
  currency : Option String
  raw_price_text : String
  source_url : String
  notes : String
deriving DecidableEq

def DEFAULT_SOLDOUT_PATTERN : String := "out of stock|sold out|غير متوفر|نفد|غير متاح"

/-- Lines 228-232: `"Sold Out"` when the sold-out pattern matches the status
text case-insensitively; else `"Available"` when a raw price is present whose
normalized text is non-empty; else `"Unknown"`. -/
def classify (soldout_pattern status_text : String) (raw_price : Option String) : String :=
  if (regexSearchCI soldout_pattern status_text).isSome then "Sold Out"
  else if (match raw_price with
           | some s => s != "" && collapseWS s != ""
           | none => false) then "Available"
  else "Unknown"

/-! ## Site configuration (`main`, lines 164-182)

A configuration row is a map of optional string cells (an absent cell models
both a missing column and a pandas `NaN`, which `main` replaces by the
documented default).  The numeric cells go through `int(...)`, which raises on
malformed text — `main` wraps none of this in a handler. -/

structure SiteCfg where
  site_name : String
  base_url : String
  list_selector : String
  name_selector : String
  price_selector : String
  status_selector : String
  soldout_regex : String
  price_attribute : String
  currency_hint : String
  sku_selector : String
  product_url_selector : String
  paging_mode : String
  page_param : String
  next_selector : String
  start_page : Int
  max_pages : Int
  sleep_ms : Int
  mobile_fallback : Bool
deriving DecidableEq

def extract_card (d : Dom) (cfg : SiteCfg) (page_url ts : String) (card : Nat) :
    Except Unit ProductRecord :=
  (if cfg.name_selector ≠ "" then
    pick_attr d (some card) cfg.name_selector page_url none >>= fun v =>
      Except.ok (clean_text v)
  else Except.ok "") >>= fun name0 =>
  (if name0 = "" then
    pick_attr d (some card) ".woocommerce-loop-product__title" page_url none >>= fun a =>
      if clean_text a ≠ "" then Except.ok (clean_text a)
      else
        pick_attr d (some card) "h3.name" page_url none >>= fun b =>
          if clean_text b ≠ "" then Except.ok (clean_text b)
          else
            pick_attr d (some card) "h2,h3,.product-title,.caption a" page_url none >>=
              fun c => Except.ok (clean_text c)
  else Except.ok name0) >>= fun name =>
  (if cfg.price_selector ≠ "" then
    pick_attr d (some card) cfg.price_selector page_url
      (if cfg.price_attribute ≠ "" then some cfg.price_attribute else none)
  else Except.ok none) >>= fun rp0 =>
  (if pyTruthyOpt rp0 then Except.ok rp0
  else
    pick_attr d (some card) ".woocommerce-Price-amount" page_url none >>= fun p1 =>
      if pyTruthyOpt p1 then Except.ok p1
      else pick_attr d (some card) ".prc,.price,.amount" page_url none) >>= fun raw_price =>
  (if cfg.status_selector ≠ "" then
    pick_attr d (some card) cfg.status_selector page_url none >>= fun v =>
      Except.ok (clean_text v)
  else Except.ok "") >>= fun st0 =>
  (if st0 = "" then
    pick_attr d (some card) ".stock,.availability,.-unavailable,.oos,.badge,.stock-status"
        page_url none >>= fun v => Except.ok (clean_text v)
  else Except.ok st0) >>= fun status_text =>
  (if cfg.sku_selector ≠ "" then
    pick_attr d (some card) cfg.sku_selector page_url none >>= fun v =>
      Except.ok (clean_text v)
  else Except.ok "") >>= fun sku =>
  pick_attr d (some card) cfg.product_url_selector page_url none >>= fun pu0 =>
  (if pu0.getD "" = "" then
    d.subOne card "a[href]" >>= fun a? =>
      match a? with
      | some a =>
        match d.attrOf a "href" with
        | some h => if h ≠ "" then Except.ok (abs_url page_url (some h)) else Except.ok ""
        | none => Except.ok ""
      | none => Except.ok ""
  else Except.ok (pu0.getD "")) >>= fun product_url =>
  (if pyRegexWF cfg.soldout_regex then
    Except.ok (classify cfg.soldout_regex status_text raw_price)
  else Except.error ()) >>= fun status =>
  (match raw_price with
    | none => Except.ok (parse_price none cfg.currency_hint)
    | some rp =>
      if pyRegexWF cfg.currency_hint then
        Except.ok (parse_price (some rp) cfg.currency_hint)
      else Except.error ()) >>= fun pr =>
  Except.ok
    { timestamp_iso := ts
      site_name := cfg.site_name
      product_name := name
      sku := sku
      product_url := product_url
      status := status
      price_value := pr.1
      currency := pr.2.1
      raw_price_text := pr.2.2
      source_url := page_url
      notes := "" }

/-! ## Pagination (`iterate_pages`, lines 124-155) -/

/-- Simplified model of the `urlparse` / `parse_qsl` / `dict` / `urlencode` /
`urlunparse` round trip that rewrites one query parameter: the fragment and
query are split off at the first `#` / `?`; `k=v` pairs with a non-empty value
are kept (first-occurrence order, later duplicates overwrite the value);
percent-encoding and the `;params` URL field are not modelled. -/
def dictSet (ps : List (String × String)) (k v : String) : List (String × String) :=
  if ps.any (fun q => q.1 = k) then ps.map (fun q => if q.1 = k then (q.1, v) else q)
  else ps ++ [(k, v)]

def dictOf (ps : List (String × String)) : List (String × String) :=
  ps.foldl (fun acc q => dictSet acc q.1 q.2) []

def parseQsl (query : String) : List (String × String) :=
  (splitAll ['&'] query.data).filterMap (fun kv =>
    match breakFirst ['='] kv with
    | (_, none) => none
    | (k, some v) => if v = [] then none else some (String.mk k, String.mk v))

def joinWith (sep : List Char) : List (List Char) → List Char
  | [] => []
  | [w] => w
  | w :: ws => w ++ sep ++ joinWith sep ws

def renderQuery (ps : List (String × String)) : String :=
  String.mk (joinWith ['&'] (ps.map (fun q => q.1.data ++ '=' :: q.2.data)))

def set_query_param (url param value : String) : String :=
  let f := cutFirst "#" url
  let q := cutFirst "?" f.1
  let pairs := dictSet (dictOf (parseQsl (q.2.getD ""))) param value
  q.1 ++ "?" ++ renderQuery pairs ++ (match f.2 with | none => "" | some fr => "#" ++ fr)

def paramUrls (url page_param : String) (start_page max_pages : Int) : List String :=
  let sp := pyOrInt start_page 1
  let mx := pyOrInt max_pages 1
  (List.range mx.toNat).map (fun i => set_query_param url (pyOrS page_param "page") (toString (sp + i)))

def DEFAULT_NEXT_SELECTOR : String := "a.next, a[rel=next], .next.page-numbers"

/-- One step of "link" pagination: fetch the current page, resolve the next
link (`soup.select_one(next_selector or default)`, whose `.get("href")` must
be truthy) and absolutize it.  `Except.ok none` covers all three of:
fetch failure, no next element, and missing/empty `href`.  An invalid next
selector raises. -/
def nextUrlOf (fetch : String → Nat → String → HttpOutcome) (d : Dom)
    (next_selector : String) (mf : Bool) (cur : String) : Except Unit (Option String) :=
  match http_get (fetch cur) 4 mf with
  | none => Except.ok none
  | some r =>
    match (d.select r.body (pyOrS next_selector DEFAULT_NEXT_SELECTOR)).map List.head? with
    | Except.error u => Except.error u
    | Except.ok none => Except.ok none
    | Except.ok (some nxt) =>
      match d.attrOf nxt "href" with
      | none => Except.ok none
      | some href =>
        Except.ok (if href = "" then none else some (abs_url cur (some href)))

/-- The "link" loop of `iterate_pages`: bounded by `mx` iterations, guarded by
the visited set (checked before yielding), stopping early when no next URL is
available. -/
def linkGo (next : String → Except Unit (Option String)) :
    Nat → List String → String → Except Unit (List String)
  | 0, _, _ => Except.ok []
  | m + 1, visited, cur =>
    if cur ∈ visited then Except.ok []
    else
      match next cur with
      | Except.error u => Except.error u
      | Except.ok none => Except.ok [cur]
      | Except.ok (some nxt) =>
        match linkGo next m (visited ++ [cur]) nxt with
        | Except.error u => Except.error u
        | Except.ok rest => Except.ok (cur :: rest)

/-- `iterate_pages(url, paging_mode, page_param, start_page, max_pages,
next_selector, session, headers, site_name, sleep_ms, mobile_fallback)`.
"param" mode is purely arithmetic; "link" mode fetches; any other mode yields
the base URL once. -/
def iterate_pages (fetch : String → Nat → String → HttpOutcome) (d : Dom)
    (url paging_mode page_param : String) (start_page max_pages : Int)
    (next_selector : String) (mf : Bool) : Except Unit (List String) :=
  if paging_mode = "param" then
    Except.ok (paramUrls url page_param start_page max_pages)
  else if paging_mode = "link" then
    linkGo (nextUrlOf fetch d next_selector mf) (pyOrInt max_pages 1).toNat [] url
  else Except.ok [url]

/-! ## History and snapshot builder (`main`, lines 251-268)

The history file is modelled as the list of its records.  The snapshot is
rebuilt from `pd.read_csv(HISTORY_CSV)` (line 259); of that round trip the
model keeps the two observable effects: `astype(str)` renders a re-read
empty field (NaN) as `"nan"` in the key (`csvStr`), and `sort_values`
orders NaN fields last (`strLtN`).  The computation mirrors the pandas
pipeline: a string key `str(site_name) + "|" + str(product_url)` is added,
`groupby(key)["timestamp_iso"].idxmax()` picks, per key, the row index of the
*first* occurrence of the lexicographically greatest timestamp, and the
selected rows are sorted by `(site_name, product_name)`.  (Pandas orders the
groups by sorted key; the group order is irrelevant after the final sort, so
keys are collected here in first-seen order.) -/

/-- `astype(str)` over the re-read CSV (line 260): an empty field was
written as an empty CSV cell, re-read by `pd.read_csv` as NaN, and rendered
by `astype(str)` as the string `"nan"`.  (Other dtype coercions of the
round trip are out of scope.) -/
def csvStr (s : String) : String := if s = "" then "nan" else s

def recKey (r : ProductRecord) : String := csvStr r.site_name ++ "|" ++ csvStr r.product_url

/-- `idxmax` over a group's `timestamp_iso` strings: the earliest record among
those with the maximal timestamp (pandas `idxmax` returns the first index of
the maximum). -/
def latestFirst : List ProductRecord → Option ProductRecord
  | [] => none
  | r :: rest =>
    match latestFirst rest with
    | none => some r
    | some b => if strLtB r.timestamp_iso b.timestamp_iso then some b else some r

def snapRows (h : List ProductRecord) : List ProductRecord :=
  ((h.map recKey).dedup).filterMap
    (fun k => latestFirst (h.filter (fun r => recKey r == k)))

/-- `sort_values(["site_name", "product_name"])` comparison over the re-read
frame: lexicographic on the pair, strings compared by code point, and an
empty field (NaN after the re-read) ordered last as pandas places NaN. -/
def snapLE (a b : ProductRecord) : Bool :=
  strLtN a.site_name b.site_name ||
    (a.site_name == b.site_name && strLeN a.product_name b.product_name)

def snapLEP (a b : ProductRecord) : Prop := snapLE a b = true

instance : DecidableRel snapLEP :=
  fun a b => inferInstanceAs (Decidable (snapLE a b = true))

/-- The snapshot: one row per key, sorted by `(site_name, product_name)`.
(`sort_values` uses quicksort; a comparison sort with the same ordering is
used here — tie order between rows equal in both sort columns is the only
difference, and both are deterministic.) -/
def buildSnapshot (h : List ProductRecord) : List ProductRecord :=
  List.insertionSort snapLEP (snapRows h)

/-- The two output files; `none` models an absent file, `some []` a file
holding only the column header. -/
structure OutFiles where
  history : Option (List ProductRecord)
  snapshot : Option (List ProductRecord)
deriving DecidableEq

/-- Lines 251-268: with rows, the history file is appended to (or created) and
the snapshot is recomputed from the full history; with zero rows, only the
snapshot file is rewritten with the bare header — the history file is not
touched. -/
def writeOutputs (rows : List ProductRecord) (prev : OutFiles) : OutFiles :=
  if rows = [] then { history := prev.history, snapshot := some [] }
  else
    let newHist := prev.history.getD [] ++ rows
    { history := some newHist, snapshot := some (buildSnapshot newHist) }

/-! ## The driver (`main`, lines 157-268)

`main` takes the configuration rows, the fetch environment, the DOM
environment, the run timestamp (the code re-reads the clock per page; a single
run timestamp is used here) and the pre-existing output files.  It has no
top-level exception handler: any `Except.error` raised while parsing a row or
evaluating a pagination selector propagates, in which case no output file is
written (the Python process dies with a traceback and a non-zero exit). -/

def process_page (cfg : SiteCfg) (fetch : String → Nat → String → HttpOutcome) (d : Dom)
    (ts : String) (acc : List ProductRecord × List String) (page_url : String) :
    Except Unit (List ProductRecord × List String) :=
  match http_get (fetch page_url) 4 cfg.mobile_fallback with
  | none => Except.ok acc
  | some r =>
    let cards := get_cards d r.body cfg.list_selector
    let acc2 := if cards = [] then (acc.1, acc.2 ++ [r.body]) else acc
    match cards.mapM (extract_card d cfg page_url ts) with
    | Except.error u => Except.error u
    | Except.ok recs => Except.ok (acc2.1 ++ recs, acc2.2)

def specProfiles : List (String × List String) :=
  [("woocommerce", ["ul.products li.product", "li.product"]),
   ("jumia", ["article.prd"]),
   ("opencart", [".product-layout", ".product-thumb"]),
   ("generic", [".product-card", ".product-item", "li.product-item"])]

def specScan (d : Dom) (body : String) : List Nat × String :=
  match specProfiles.find? (fun p => !(firstNonEmptyCards d body p.2).isEmpty) with
  | some p => (firstNonEmptyCards d body p.2, p.1)
  | none => ([], "none")

def resolveCardsSpec (d : Dom) (body explicitSel platformHint : String) : List Nat × String :=
  let ex := if explicitSel ≠ "" then selOk d body explicitSel else []
  if ex ≠ [] then (ex, "explicit")
  else
    match specProfiles.find? (fun p => p.1 == platformHint) with
    | some p =>
      let cs := firstNonEmptyCards d body p.2
      if cs ≠ [] then (cs, p.1) else specScan d body
    | none => specScan d body

/-! ## Auxiliary predicates -/

/-- A computation that did not raise. -/
def ExOk {α : Type} (e : Except Unit α) : Prop := ∃ a, e = Except.ok a

def exRec1 : ProductRecord :=
  { timestamp_iso := "2024-01-01T00:00:00"
    site_name := "s"
    product_name := "n1"
    sku := "k1"
    product_url := "u"
    status := "Unknown"
    price_value := none
    currency := none
    raw_price_text := ""
    source_url := ""
    notes := "" }

def exRec2 : ProductRecord := { exRec1 with sku := "k2", product_name := "n2" }

def exRec3 : ProductRecord :=
  { exRec1 with site_name := "a|b", product_url := "c", timestamp_iso := "2024" }

def exRec4 : ProductRecord :=
  { exRec1 with site_name := "a", product_url := "b|c", timestamp_iso := "2025" }

/-- The record extracted from a card on which every selector misses. -/
def exRecBare : ProductRecord :=
  { timestamp_iso := "t"
    site_name := "site"
    product_name := ""
    sku := ""
    product_url := ""
    status := "Unknown"
    price_value := none
    currency := none
    raw_price_text := ""
    source_url := "u"
    notes := "" }

def exFetchOkB : String → Nat → String → HttpOutcome :=
  fun _ _ _ => HttpOutcome.resp 200 "B"

def exFetchBot : Nat → String → HttpOutcome :=
  fun _ _ => HttpOutcome.resp 200 "one moment... Just A Moment please"

def exDomErr : Dom :=
  { select := fun _ _ => Except.error ()
    subOne := fun _ _ => Except.ok none
    textOf := fun _ => ""
    attrOf := fun _ _ => none }

/-- Page on which both a WooCommerce-annotated and an OpenCart-annotated
default selector match (different cards). -/
def exDomHint : Dom :=
  { select := fun _ s =>
      if s = "ul.products li.product" then Except.ok [1]
      else if s = ".product-layout" then Except.ok [2] else Except.ok []
    subOne := fun _ _ => Except.ok none
    textOf := fun _ => ""
    attrOf := fun _ _ => none }

/-- Card 7 carries a status badge "Out of Stock" (element 8) and a price
"1,250.00 EGP" (element 9), reachable only through the generic fallback
selectors. -/
def exDomCard : Dom :=
  { select := fun _ _ => Except.ok []
    subOne := fun e s =>
      if e = 7 && s = ".stock,.availability,.-unavailable,.oos,.badge,.stock-status" then
        Except.ok (some 8)
      else if e = 7 && s = ".woocommerce-Price-amount" then Except.ok (some 9)
      else Except.ok none
    textOf := fun e => if e = 8 then "Out of Stock" else if e = 9 then "1,250.00 EGP" else ""
    attrOf := fun _ _ => none }

/-- Page with a single card (id 7) on which every per-field selector misses. -/
def exDomBare : Dom :=
  { select := fun _ s => if s = "ul.products li.product" then Except.ok [7] else Except.ok []
    subOne := fun _ _ => Except.ok none
    textOf := fun _ => ""
    attrOf := fun _ _ => none }

/-- Page whose next-link resolves back to the URL `"a"` itself. -/
def exDomLoop : Dom :=
  { select := fun _ s => if s = DEFAULT_NEXT_SELECTOR then Except.ok [5] else Except.ok []
    subOne := fun _ _ => Except.ok none
    textOf := fun _ => ""
    attrOf := fun e a => if e = 5 && a = "href" then some "a" else none }

/-- Configuration with every optional column at its default. -/
def exCfg : SiteCfg :=
  { site_name := "site"
    base_url := "https://x/cat"
    list_selector := ""
    name_selector := ""
    price_selector := ""
    status_selector := ""
    soldout_regex := DEFAULT_SOLDOUT_PATTERN
    price_attribute := ""
    currency_hint := DEFAULT_CURRENCY_HINT
    sku_selector := ""
    product_url_selector := "a@href"
    paging_mode := "none"
    page_param := "page"
    next_selector := ""
    start_page := 1
    max_pages := 1
    sleep_ms := 1200
    mobile_fallback := true }

theorem lexLt_irrefl (l : List Char) : lexLt l l = false := by
  induction l with
  | nil => rfl
  | cons c t ih => simp [lexLt, charLt, ih]

theorem lexLt_trans {a b c : List Char} (h1 : lexLt a b = true) (h2 : lexLt b c = true) :
    lexLt a c = true := by
  induction a generalizing b c with
  | nil =>
    cases b with
    | nil => simp [lexLt] at h1
    | cons y ys =>
      cases c with
      | nil => simp [lexLt] at h2
      | cons z zs => simp [lexLt]
  | cons x xs ih =>
    cases b with
    | nil => simp [lexLt] at h1
    | cons y ys =>
      cases c with
      | nil => simp [lexLt] at h2
      | cons z zs =>
        simp only [lexLt, Bool.or_eq_true, Bool.and_eq_true, decide_eq_true_eq, charLt]
          at h1 h2 ⊢
        rcases h1 with h1 | ⟨hxy, h1⟩
        · rcases h2 with h2 | ⟨hyz, h2⟩
          · exact Or.inl (Nat.lt_trans h1 h2)
          · exact Or.inl (hyz ▸ h1)
        · rcases h2 with h2 | ⟨hyz, h2⟩
          · exact Or.inl (hxy ▸ h2)
          · exact Or.inr ⟨hxy.trans hyz, ih h1 h2⟩

theorem lexLt_asymm {a b : List Char} (h1 : lexLt a b = true) (h2 : lexLt b a = true) :
    False := by
  have h := lexLt_trans h1 h2
  rw [lexLt_irrefl] at h
  exact Bool.false_ne_true h

theorem charToNat_inj {x y : Char} (h : x.toNat = y.toNat) : x = y := by
  unfold Char.toNat at h
  exact Char.eq_of_val_eq (UInt32.ext h)

theorem lexLt_tri (a b : List Char) : lexLt a b = true ∨ lexLt b a = true ∨ a = b := by
  induction a generalizing b with
  | nil =>
    cases b with
    | nil => exact Or.inr (Or.inr rfl)
    | cons y ys => exact Or.inl (by simp [lexLt])
  | cons x xs ih =>
    cases b with
    | nil => exact Or.inr (Or.inl (by simp [lexLt]))
    | cons y ys =>
      rcases Nat.lt_trichotomy x.toNat y.toNat with hc | hc | hc
      · exact Or.inl (by simp [lexLt, charLt, hc])
      · have hxy : x = y := charToNat_inj hc
        subst hxy
        rcases ih ys with h | h | h
        · exact Or.inl (by simp [lexLt, charLt, h])
        · exact Or.inr (Or.inl (by simp [lexLt, charLt, h]))
        · exact Or.inr (Or.inr (by rw [h]))
      · exact Or.inr (Or.inl (by simp [lexLt, charLt, hc]))

theorem strLtB_irrefl (a : String) : strLtB a a = false := lexLt_irrefl _

theorem strLtB_trans {a b c : String} (h1 : strLtB a b = true) (h2 : strLtB b c = true) :
    strLtB a c = true := lexLt_trans h1 h2

theorem strLtB_asymm {a b : String} (h1 : strLtB a b = true) (h2 : strLtB b a = true) :
    False := lexLt_asymm h1 h2

theorem strLtB_tri (a b : String) : strLtB a b = true ∨ strLtB b a = true ∨ a = b := by
  rcases lexLt_tri a.data b.data with h | h | h
  · exact Or.inl h
  · exact Or.inr (Or.inl h)
  · exact Or.inr (Or.inr (String.ext h))

theorem nanKey_inj {a b : String} (h : nanKey a = nanKey b) : a = b := by
  unfold nanKey at h
  by_cases ha : a = ""
  · by_cases hb : b = ""
    · rw [ha, hb]
    · rw [if_pos ha, if_neg hb] at h
      injection h with h1 h2
      exact absurd h1 (by decide)
  · by_cases hb : b = ""
    · rw [if_neg ha, if_pos hb] at h
      injection h with h1 h2
      exact absurd h1 (by decide)
    · rw [if_neg ha, if_neg hb] at h
      injection h with h1 h2
      exact String.ext h2

theorem strLtN_irrefl (a : String) : strLtN a a = false := lexLt_irrefl _

theorem strLtN_trans {a b c : String} (h1 : strLtN a b = true) (h2 : strLtN b c = true) :
    strLtN a c = true := lexLt_trans h1 h2

theorem strLtN_asymm {a b : String} (h1 : strLtN a b = true) (h2 : strLtN b a = true) :
    False := lexLt_asymm h1 h2

theorem strLtN_tri (a b : String) : strLtN a b = true ∨ strLtN b a = true ∨ a = b := by
  rcases lexLt_tri (nanKey a) (nanKey b) with h | h | h
  · exact Or.inl h
  · exact Or.inr (Or.inl h)
  · exact Or.inr (Or.inr (nanKey_inj h))

theorem strLeN_of_not_lt {a b : String} (h : strLtN b a = false) : strLeN a b = true := by
  simp [strLeN, h]

theorem not_lt_of_strLeN {a b : String} (h : strLeN a b = true) : strLtN b a = false := by
  simpa [strLeN] using h

theorem strLeN_trans {a b c : String} (h1 : strLeN a b = true) (h2 : strLeN b c = true) :
    strLeN a c = true := by
  apply strLeN_of_not_lt
  by_contra hca
  have hca : strLtN c a = true := by
    cases h : strLtN c a
    · exact absurd h hca
    · rfl
  have hba := not_lt_of_strLeN h1
  have hcb := not_lt_of_strLeN h2
  rcases strLtN_tri a b with h | h | h
  · have := strLtN_trans hca h
    rw [hcb] at this
    exact Bool.false_ne_true this
  · rw [hba] at h
    exact Bool.false_ne_true h
  · subst h
    rw [hcb] at hca
    exact Bool.false_ne_true hca

theorem snapLE_trans {a b c : ProductRecord} (h1 : snapLE a b = true) (h2 : snapLE b c = true) :
    snapLE a c = true := by
  simp only [snapLE, Bool.or_eq_true, Bool.and_eq_true, beq_iff_eq] at h1 h2 ⊢
  rcases h1 with h1 | ⟨e1, l1⟩
  · rcases h2 with h2 | ⟨e2, l2⟩
    · exact Or.inl (strLtN_trans h1 h2)
    · exact Or.inl (e2 ▸ h1)
  · rcases h2 with h2 | ⟨e2, l2⟩
    · exact Or.inl (e1 ▸ h2)
    · exact Or.inr ⟨e1.trans e2, strLeN_trans l1 l2⟩

theorem snapLE_total (a b : ProductRecord) : snapLE a b = true ∨ snapLE b a = true := by
  simp only [snapLE, Bool.or_eq_true, Bool.and_eq_true, beq_iff_eq]
  rcases strLtN_tri a.site_name b.site_name with h | h | h
  · exact Or.inl (Or.inl h)
  · exact Or.inr (Or.inl h)
  · rcases strLtN_tri a.product_name b.product_name with hn | hn | hn
    · refine Or.inl (Or.inr ⟨h, strLeN_of_not_lt ?_⟩)
      cases hba : strLtN b.product_name a.product_name
      · rfl
      · exact absurd (strLtN_asymm hn hba) (fun x => x)
    · refine Or.inr (Or.inr ⟨h.symm, strLeN_of_not_lt ?_⟩)
      cases hba : strLtN a.product_name b.product_name
      · rfl
      · exact absurd (strLtN_asymm hn hba) (fun x => x)
    · exact Or.inl (Or.inr ⟨h, strLeN_of_not_lt (hn ▸ strLtN_irrefl _)⟩)

/-! ## `latestFirst`: the first record attaining the maximal timestamp -/

theorem latestFirst_cons_isSome (r : ProductRecord) (t : List ProductRecord) :
    ∃ m, latestFirst (r :: t) = some m := by
  simp only [latestFirst]
  cases latestFirst t with
  | none => exact ⟨r, rfl⟩
  | some b =>
    cases h : strLtB r.timestamp_iso b.timestamp_iso
    · exact ⟨r, by simp [h]⟩
    · exact ⟨b, by simp [h]⟩

theorem latestFirst_spec {l : List ProductRecord} {m : ProductRecord}
    (h : latestFirst l = some m) :
    m ∈ l ∧ (∀ x ∈ l, strLtB m.timestamp_iso x.timestamp_iso = false) ∧
    ∃ pre suf, l = pre ++ m :: suf ∧
      ∀ x ∈ pre, strLtB x.timestamp_iso m.timestamp_iso = true := by
  induction l generalizing m with
  | nil => simp [latestFirst] at h
  | cons r t ih =>
    simp only [latestFirst] at h
    cases ht : latestFirst t with
    | none =>
      rw [ht] at h
      injection h with hm
      subst hm
      have ht0 : t = [] := by
        cases t with
        | nil => rfl
        | cons a s =>
          obtain ⟨m2, hm2⟩ := latestFirst_cons_isSome a s
          rw [hm2] at ht
          cases ht
      subst ht0
      refine ⟨by simp, ?_, ⟨[], [], rfl, by simp⟩⟩
      intro x hx
      rw [List.mem_singleton] at hx
      subst hx
      exact strLtB_irrefl _
    | some b =>
      obtain ⟨hbmem, hbmax, pre, suf, hdecomp, hpre⟩ := ih ht
      cases hlt : strLtB r.timestamp_iso b.timestamp_iso
      · have hmr : m = r := by
          rw [ht] at h
          simp only [hlt, Bool.false_eq_true, if_false, Option.some.injEq] at h
          exact h.symm
        subst hmr
        refine ⟨by simp, ?_, ⟨[], t, rfl, by simp⟩⟩
        intro x hx
        rcases List.mem_cons.mp hx with hx | hx
        · subst hx
          exact strLtB_irrefl _
        · cases hrx : strLtB m.timestamp_iso x.timestamp_iso
          · rfl
          · exfalso
            rcases strLtB_tri x.timestamp_iso b.timestamp_iso with hxb | hbx | hxe
            · have hrb := strLtB_trans hrx hxb
              rw [hlt] at hrb
              exact Bool.false_ne_true hrb
            · rw [hbmax x hx] at hbx
              exact Bool.false_ne_true hbx
            · rw [hxe] at hrx
              rw [hlt] at hrx
              exact Bool.false_ne_true hrx
      · have hmb : m = b := by
          rw [ht] at h
          simp only [hlt, if_true, Option.some.injEq] at h
          exact h.symm
        subst hmb
        refine ⟨List.mem_cons_of_mem _ hbmem, ?_,
          ⟨r :: pre, suf, by rw [hdecomp, List.cons_append], ?_⟩⟩
        · intro x hx
          rcases List.mem_cons.mp hx with hx | hx
          · subst hx
            cases hbr : strLtB m.timestamp_iso x.timestamp_iso
            · rfl
            · exact absurd (strLtB_asymm hlt hbr) (fun q => q)
          · exact hbmax x hx
        · intro x hx
          rcases List.mem_cons.mp hx with hx | hx
          · subst hx
            exact hlt
          · exact hpre x hx

/-! ## `snapRows` / `buildSnapshot` structure -/

theorem latestFirst_filter_isSome {h : List ProductRecord} {k : String}
    (hk : k ∈ h.map recKey) :
    ∃ m, latestFirst (h.filter (fun r => recKey r == k)) = some m ∧ recKey m = k := by
  obtain ⟨r, hr, hrk⟩ := List.mem_map.mp hk
  have hrf : r ∈ h.filter (fun r => recKey r == k) :=
    List.mem_filter.mpr ⟨hr, by simp [hrk]⟩
  obtain ⟨m, hm⟩ : ∃ m, latestFirst (h.filter (fun r => recKey r == k)) = some m := by
    cases hf : h.filter (fun r => recKey r == k) with
    | nil =>
      rw [hf] at hrf
      cases hrf
    | cons a s => exact latestFirst_cons_isSome a s
  refine ⟨m, hm, ?_⟩
  have hmf := (latestFirst_spec hm).1
  have := (List.mem_filter.mp hmf).2
  simpa using this

theorem snapRows_keys (h : List ProductRecord) :
    (snapRows h).map recKey = (h.map recKey).dedup := by
  have main : ∀ ks : List String, (∀ k2 ∈ ks, k2 ∈ h.map recKey) →
      ((ks.filterMap (fun k => latestFirst (h.filter (fun r => recKey r == k)))).map recKey)
        = ks := by
    intro ks
    induction ks with
    | nil => intro _; rfl
    | cons k ks ih =>
      intro hmem
      obtain ⟨m, hm, hmk⟩ := latestFirst_filter_isSome (hmem k (List.mem_cons_self k ks))
      simp only [List.filterMap_cons, hm, List.map_cons, hmk]
      rw [ih (fun k2 hk2 => hmem k2 (List.mem_cons_of_mem _ hk2))]
  exact main _ (fun k2 hk2 => List.mem_dedup.mp hk2)

theorem buildSnapshot_perm (h : List ProductRecord) :
    (buildSnapshot h).Perm (snapRows h) := List.perm_insertionSort _ _

theorem buildSnapshot_keys_nodup (h : List ProductRecord) :
    ((buildSnapshot h).map recKey).Nodup := by
  have hp := (buildSnapshot_perm h).map recKey
  refine (List.Perm.nodup_iff hp).mpr ?_
  rw [snapRows_keys]
  exact List.nodup_dedup _

theorem buildSnapshot_keys_mem (h : List ProductRecord) (k : String) :
    k ∈ (buildSnapshot h).map recKey ↔ k ∈ h.map recKey := by
  rw [List.Perm.mem_iff ((buildSnapshot_perm h).map recKey), snapRows_keys, List.mem_dedup]

theorem buildSnapshot_mem_of_key {h : List ProductRecord} {k : String}
    (hk : k ∈ h.map recKey) :
    ∃ m, latestFirst (h.filter (fun r => recKey r == k)) = some m ∧ m ∈ buildSnapshot h := by
  obtain ⟨m, hm, _⟩ := latestFirst_filter_isSome hk
  refine ⟨m, hm, ?_⟩
  refine (List.Perm.mem_iff (buildSnapshot_perm h)).mpr ?_
  exact List.mem_filterMap.mpr ⟨k, List.mem_dedup.mpr hk, hm⟩

theorem buildSnapshot_sorted (h : List ProductRecord) :
    (buildSnapshot h).Pairwise snapLEP :=
  @List.sorted_insertionSort _ snapLEP _ ⟨fun a b => snapLE_total a b⟩
    ⟨fun _ _ _ h1 h2 => snapLE_trans h1 h2⟩ _

/-! ## `Except` plumbing -/

theorem exOk_pure {α : Type} (a : α) : ExOk (Except.ok a : Except Unit α) := ⟨a, rfl⟩

theorem mapM_ok_length {α β : Type} (f : α → Except Unit β) :
    ∀ (l : List α) (acc ys : List β),
      List.mapM.loop f l acc = Except.ok ys → ys.length = l.length + acc.length := by
  intro l
  induction l with
  | nil =>
    intro acc ys hy
    simp only [List.mapM.loop] at hy
    injection hy with hy
    subst hy
    simp
  | cons a t ih =>
    intro acc ys hy
    simp only [List.mapM.loop] at hy
    cases hf : f a with
    | error u => rw [hf] at hy; cases hy
    | ok b =>
      rw [hf] at hy
      have := ih (b :: acc) ys hy
      simp at this ⊢
      omega

theorem mapM_length {α β : Type} (f : α → Except Unit β) (l : List α) (ys : List β)
    (h : l.mapM f = Except.ok ys) : ys.length = l.length := by
  have := mapM_ok_length f l [] ys h
  simpa using this

theorem linkGo_spec (next : String → Except Unit (Option String)) :
    ∀ (m : Nat) (visited : List String) (cur : String) (urls : List String),
      linkGo next m visited cur = Except.ok urls →
      (∀ x ∈ urls, x ∉ visited) ∧ urls.Nodup ∧ urls.length ≤ m ∧
      (0 < m → cur ∉ visited → ∃ t, urls = cur :: t) ∧
      (urls.length < m →
        urls = [] ∨ ∃ last, urls.getLast? = some last ∧
          (next last = Except.ok none ∨
           ∃ v, next last = Except.ok (some v) ∧ (v ∈ visited ∨ v ∈ urls))) := by
  intro m
  induction m with
  | zero =>
    intro visited cur urls h
    simp only [linkGo] at h
    injection h with h
    subst h
    exact ⟨by simp, List.nodup_nil, by simp, by omega, by omega⟩
  | succ m ih =>
    intro visited cur urls h
    simp only [linkGo] at h
    by_cases hv : cur ∈ visited
    · rw [if_pos hv] at h
      injection h with h
      subst h
      refine ⟨by simp, List.nodup_nil, by simp, ?_, fun _ => Or.inl rfl⟩
      intro _ hcv
      exact absurd hv hcv
    · rw [if_neg hv] at h
      cases hn : next cur with
      | error u => rw [hn] at h; cases h
      | ok nxt? =>
        rw [hn] at h
        cases nxt? with
        | none =>
          injection h with h
          subst h
          refine ⟨?_, by simp, by simp, fun _ _ => ⟨[], rfl⟩, ?_⟩
          · intro x hx
            rw [List.mem_singleton] at hx
            subst hx
            exact hv
          · intro _
            exact Or.inr ⟨cur, rfl, Or.inl hn⟩
        | some nxt =>
          have h2 : (match linkGo next m (visited ++ [cur]) nxt with
            | Except.error u => (Except.error u : Except Unit (List String))
            | Except.ok rest => Except.ok (cur :: rest)) = Except.ok urls := h
          cases hrec : linkGo next m (visited ++ [cur]) nxt with
          | error u =>
            rw [hrec] at h2
            have h3 : (Except.error u : Except Unit (List String)) = Except.ok urls := h2
            cases h3
          | ok rest =>
            rw [hrec] at h2
            have h3 : Except.ok (cur :: rest) = (Except.ok urls : Except Unit (List String)) := h2
            injection h3 with h3
            subst h3
            obtain ⟨hnotin, hnodup, hlen, hhead, hstop⟩ := ih (visited ++ [cur]) nxt rest hrec
            have hrestnv : ∀ x ∈ rest, x ∉ visited := by
              intro x hx hxv
              exact hnotin x hx (List.mem_append.mpr (Or.inl hxv))
            have hrestnc : cur ∉ rest := by
              intro hc
              exact hnotin cur hc (List.mem_append.mpr (Or.inr (List.mem_singleton.mpr rfl)))
            refine ⟨?_, List.Nodup.cons hrestnc hnodup, by simpa using Nat.succ_le_succ hlen,
              fun _ _ => ⟨rest, rfl⟩, ?_⟩
            · intro x hx
              rcases List.mem_cons.mp hx with hx | hx
              · subst hx
                exact hv
              · exact hrestnv x hx
            · intro hlt
              have hlt2 : rest.length < m := by
                simp at hlt
                omega
              right
              cases hrest0 : rest with
              | nil =>
                subst hrest0
                have : nxt ∈ visited ++ [cur] := by
                  by_contra hnin
                  obtain ⟨t2, ht2⟩ := hhead (by omega) hnin
                  cases ht2
                refine ⟨cur, rfl, Or.inr ⟨nxt, hn, ?_⟩⟩
                rcases List.mem_append.mp this with hh | hh
                · exact Or.inl hh
                · rw [List.mem_singleton] at hh
                  subst hh
                  exact Or.inr (List.mem_singleton.mpr rfl)
              | cons q qs =>
                subst hrest0
                rcases hstop hlt2 with hnil | ⟨last, hlast, hcond⟩
                · cases hnil
                · have hlast2 : (cur :: q :: qs).getLast? = some last := by
                    rw [List.getLast?_cons_cons]
                    exact hlast
                  refine ⟨last, hlast2, ?_⟩
                  rcases hcond with hcond | ⟨v, hveq, hvmem⟩
                  · exact Or.inl hcond
                  · refine Or.inr ⟨v, hveq, ?_⟩
                    rcases hvmem with hvm | hvm
                    · rcases List.mem_append.mp hvm with hh | hh
                      · exact Or.inl hh
                      · rw [List.mem_singleton] at hh
                        subst hh
                        exact Or.inr (List.mem_cons_self _ _)
                    · exact Or.inr (List.mem_cons_of_mem _ hvm)

/-! ## Totality of the pipeline under a non-raising DOM -/

theorem writeOutputs_snapshot (rows : List ProductRecord) (prev : OutFiles) :
    ∃ snap, (writeOutputs rows prev).snapshot = some snap := by
  unfold writeOutputs
  split
  · exact ⟨[], rfl⟩
  · exact ⟨_, rfl⟩

theorem usableResp_spec {o : HttpOutcome} {r : HttpResp} (h : usableResp o = some r) :
    r.status = 200 ∧ r.body ≠ "" ∧ isBotWall r.body = false := by
  cases o with
  | exn => cases h
  | resp st body =>
    simp only [usableResp] at h
    by_cases h1 : st = 200 ∧ body ≠ ""
    · rw [if_pos h1] at h
      cases h2 : isBotWall body
      · rw [h2] at h
        simp only [Bool.false_eq_true, if_false, Option.some.injEq] at h
        subst h
        exact ⟨h1.1, h1.2, h2⟩
      · rw [h2] at h
        simp only [if_true] at h
        cases h
    · rw [if_neg h1] at h
      cases h

theorem httpGo_some (env : Nat → String → HttpOutcome) (mf : Bool) :
    ∀ (rem attempt : Nat) (r : HttpResp), httpGo env mf attempt rem = some r →
      ∃ a, usableResp (env a (uaFor a mf)) = some r := by
  intro rem
  induction rem with
  | zero =>
    intro attempt r h
    cases h
  | succ rem ih =>
    intro attempt r h
    simp only [httpGo] at h
    cases hu : usableResp (env attempt (uaFor attempt mf)) with
    | some r2 =>
      rw [hu] at h
      injection h with h
      subst h
      exact ⟨attempt, hu⟩
    | none =>
      rw [hu] at h
      exact ih (attempt + 1) r h

theorem httpGo_none (env : Nat → String → HttpOutcome) (mf : Bool) :
    ∀ (rem attempt : Nat),
      (∀ a, attempt ≤ a → a < attempt + rem → usableResp (env a (uaFor a mf)) = none) →
      httpGo env mf attempt rem = none := by
  intro rem
  induction rem with
  | zero => intro attempt _; rfl
  | succ rem ih =>
    intro attempt hall
    simp only [httpGo]
    rw [hall attempt (Nat.le_refl _) (by omega)]
    exact ih (attempt + 1) (fun a ha1 ha2 => hall a (by omega) (by omega))

/-! ## Default selector list scan -/

theorem firstNonEmptyCards_nil (d : Dom) (body : String) :
    ∀ sels : List String, (∀ s ∈ sels, selOk d body s = []) →
      firstNonEmptyCards d body sels = [] := by
  intro sels
  induction sels with
  | nil => intro _; rfl
  | cons s rest ih =>
    intro hall
    simp only [firstNonEmptyCards]
    rw [hall s (List.mem_cons_self s rest)]
    simp only [if_pos rfl]
    exact ih (fun s2 hs2 => hall s2 (List.mem_cons_of_mem _ hs2))

theorem firstNonEmptyCards_first (d : Dom) (body : String) :
    ∀ sels : List String, firstNonEmptyCards d body sels ≠ [] →
      ∃ pre s suf, sels = pre ++ s :: suf ∧
        selOk d body s = firstNonEmptyCards d body sels ∧
        ∀ s2 ∈ pre, selOk d body s2 = [] := by
  intro sels
  induction sels with
  | nil => intro h; exact absurd rfl h
  | cons s rest ih =>
    intro h
    by_cases hs : selOk d body s = []
    · have heq : firstNonEmptyCards d body (s :: rest) = firstNonEmptyCards d body rest := by
        simp only [firstNonEmptyCards, hs, eq_self_iff_true]
        exact if_pos trivial
      rw [heq] at h ⊢
      obtain ⟨pre, s2, suf, hdec, hsel, hpre⟩ := ih h
      refine ⟨s :: pre, s2, suf, by rw [hdec, List.cons_append], hsel, ?_⟩
      intro s3 hs3
      rcases List.mem_cons.mp hs3 with hs3 | hs3
      · subst hs3
        exact hs
      · exact hpre s3 hs3
    · have heq : firstNonEmptyCards d body (s :: rest) = selOk d body s := by
        simp only [firstNonEmptyCards, hs, eq_self_iff_true]
        exact if_neg (fun f => f)
      rw [heq]
      exact ⟨[], s, rest, rfl, rfl, by simp⟩

/-! # Claims -/

/-- Claim C1, counterexample.  Two divergences from the claim: (a) on a
timestamp tie within a key group, `idxmax` keeps the *first*-appended record,
not the last-appended one — `[exRec1, exRec2]` share key and timestamp yet the
snapshot keeps `exRec1`; (b) grouping is by the joined string
`site_name + "|" + product_url`, so the two *distinct* pairs
`("a|b", "c")` and `("a", "b|c")` — all fields non-empty, so the CSV round
trip preserves them verbatim — collide into the one key `"a|b|c"` and only
one of them survives in the snapshot. -/
theorem claim_C1_counterexample :
    (buildSnapshot [exRec1, exRec2] = [exRec1] ∧ exRec1 ≠ exRec2 ∧
      recKey exRec1 = recKey exRec2 ∧ exRec1.timestamp_iso = exRec2.timestamp_iso) ∧
    ((buildSnapshot [exRec3, exRec4]).length = 1 ∧
      (exRec3.site_name, exRec3.product_url) ≠ (exRec4.site_name, exRec4.product_url) ∧
      ∀ r ∈ buildSnapshot [exRec3, exRec4],
        ¬(r.site_name = exRec3.site_name ∧ r.product_url = exRec3.product_url)) := by
  refine ⟨⟨?_, ?_, ?_, ?_⟩, ?_, ?_, ?_⟩ <;> decide

/-- Claim C1 (amended): the snapshot, rebuilt from the re-read history file,
contains exactly one record per distinct *joined* key
`str(site_name) + "|" + str(product_url)` — where `astype(str)` renders a
re-read empty field (NaN) as `"nan"`, and distinct `(site_name, product_url)`
pairs whose joined keys coincide are merged — every joined key occurring in
the history appears, the record chosen for a key is the one with the greatest
timestamp string with ties broken in favor of the *first*-appended record,
the rows are sorted by `(site_name, product_name)` with empty (NaN) fields
ordered last, and building the snapshot twice from the same history yields
identical output. -/
theorem claim_C1 (h : List ProductRecord) (k : String) (hk : k ∈ h.map recKey) :
    ((buildSnapshot h).map recKey).Nodup ∧
    (∀ k2, k2 ∈ (buildSnapshot h).map recKey ↔ k2 ∈ h.map recKey) ∧
    (∃ m, m ∈ buildSnapshot h ∧ recKey m = k ∧
      (∀ x ∈ h.filter (fun r => recKey r == k), strLtB m.timestamp_iso x.timestamp_iso = false) ∧
      ∃ pre suf, h.filter (fun r => recKey r == k) = pre ++ m :: suf ∧
        ∀ x ∈ pre, strLtB x.timestamp_iso m.timestamp_iso = true) ∧
    (buildSnapshot h).Pairwise snapLEP ∧
    buildSnapshot h = buildSnapshot h := by
  refine ⟨buildSnapshot_keys_nodup h, fun k2 => buildSnapshot_keys_mem h k2, ?_,
    buildSnapshot_sorted h, rfl⟩
  obtain ⟨m, hm, hmem⟩ := buildSnapshot_mem_of_key hk
  obtain ⟨hmf, hmax, pre, suf, hdec, hpre⟩ := latestFirst_spec hm
  have hmk : recKey m = k := by simpa using (List.mem_filter.mp hmf).2
  exact ⟨m, hmem, hmk, hmax, pre, suf, hdec, hpre⟩

theorem claim_C1_witness :
    ("s|u" ∈ ([exRec1, exRec2].map recKey)) ∧
    ((buildSnapshot [exRec1, exRec2]).map recKey).Nodup :=
  ⟨by decide, (claim_C1 [exRec1, exRec2] "s|u" (by decide)).1⟩

/-- Claim C9, counterexample: on a run with zero extracted records only the
snapshot file is rewritten (header-only); the history file is left untouched,
so when it did not exist before the run a downstream consumer still sees a
missing history file, contrary to the claim that both artifacts are
emitted. -/
theorem claim_C9_counterexample :
    writeOutputs [] { history := none, snapshot := none } =
      { history := none, snapshot := some [] } ∧
    (writeOutputs [] { history := none, snapshot := none }).history = none := ⟨rfl, rfl⟩

/-- Claim C9 (amended): on a run with zero extracted records, only the
snapshot file is emitted, as an empty table holding just the column header;
the history file is not created or modified.  (The snapshot file is written on
every completed run, empty or not.) -/
theorem claim_C9 (prev : OutFiles) :
    writeOutputs [] prev = { history := prev.history, snapshot := some [] } ∧
    ∀ rows, ∃ snap, (writeOutputs rows prev).snapshot = some snap := by
  constructor
  · unfold writeOutputs
    rw [if_pos rfl]
  · exact fun rows => writeOutputs_snapshot rows prev

/-- Claim C10 (confirmed): `get_cards` is total — an explicit list selector
whose evaluation raises is caught and treated as matching zero elements, after
which the default selector chain is tried, and the function always returns a
(possibly empty) list without propagating an exception. -/
theorem claim_C10 (d : Dom) (body sel : String) :
    (d.select body sel = Except.error () → get_cards d body sel = defaultCards d body) ∧
    ∃ cards, get_cards d body sel = cards := by
  constructor
  · intro herr
    simp [get_cards, selOk, herr]
  · exact ⟨_, rfl⟩

theorem claim_C10_witness :
    exDomErr.select "b" "x[" = Except.error () ∧
    get_cards exDomErr "b" "x[" = defaultCards exDomErr "b" :=
  ⟨rfl, (claim_C10 exDomErr "b" "x[").1 rfl⟩

/-- Claim C3 (confirmed): the status assigned to a card is `"Sold Out"`
whenever the status text matches the sold-out pattern case-insensitively,
even when a non-empty raw price is present; otherwise `"Available"` exactly
when a raw price with non-empty normalized text was found; otherwise
`"Unknown"`.  End-to-end: a card whose status badge reads "Out of Stock" and
whose price reads "1,250.00 EGP" is classified `"Sold Out"`. -/
theorem claim_C3 (pat st : String) (rp : Option String) :
    ((regexSearchCI pat st).isSome = true → classify pat st rp = "Sold Out") ∧
    (regexSearchCI pat st = none → ∀ s, rp = some s → collapseWS s ≠ "" →
      classify pat st rp = "Available") ∧
    (regexSearchCI pat st = none → classify pat st rp = "Available" →
      ∃ s, rp = some s ∧ collapseWS s ≠ "") ∧
    (regexSearchCI pat st = none → (∀ s, rp = some s → collapseWS s = "") →
      classify pat st rp = "Unknown") ∧
    ((extract_card exDomCard exCfg "u" "t" 7).map (fun r => r.status) =
      Except.ok "Sold Out") ∧
    ((extract_card exDomCard exCfg "u" "t" 7).map (fun r => r.raw_price_text) =
      Except.ok "1,250.00 EGP") := by
  refine ⟨?_, ?_, ?_, ?_, rfl, rfl⟩
  · intro hm
    simp [classify, hm]
  · intro hn s hs hcw
    subst hs
    have hc : (regexSearchCI pat st).isSome = false := by rw [hn]; rfl
    have hs0 : s ≠ "" := by
      intro h0
      subst h0
      exact hcw rfl
    simp [classify, hc, hs0, hcw]
  · intro hn hav
    have hc : (regexSearchCI pat st).isSome = false := by rw [hn]; rfl
    cases rp with
    | none =>
      simp [classify, hc] at hav
    | some s =>
      by_cases hcw : collapseWS s = ""
      · simp [classify, hc, hcw] at hav
      · exact ⟨s, rfl, hcw⟩
  · intro hn hall
    have hc : (regexSearchCI pat st).isSome = false := by rw [hn]; rfl
    cases rp with
    | none => simp [classify, hc]
    | some s =>
      have hcw := hall s rfl
      simp [classify, hc, hcw]

theorem claim_C3_witness :
    (regexSearchCI DEFAULT_SOLDOUT_PATTERN "Out of Stock").isSome = true ∧
    classify DEFAULT_SOLDOUT_PATTERN "Out of Stock" (some "1,250.00 EGP") = "Sold Out" :=
  ⟨rfl, (claim_C3 DEFAULT_SOLDOUT_PATTERN "Out of Stock" (some "1,250.00 EGP")).1 rfl⟩

/-- Claim C4 (confirmed): for every input text, `parse_price` returns a triple
whose `rawText` is always the whitespace-normalized original text; whose
currency is the case-insensitive match of the currency pattern anywhere in
the text, or `""` when absent; and whose value is the first numeric run with
grouping separators removed parsed as a float — `none` when no run exists or
parsing fails — without ever raising (the model is a total function).
In particular `"1,250.00 EGP"` yields `(1250.00, "EGP", "1,250.00 EGP")`. -/
theorem claim_C4 (s hint : String) :
    ((parse_price (some s) hint).2.2 = collapseWS s) ∧
    (regexSearchCI hint (collapseWS s) = none →
      (parse_price (some s) hint).2.1 = some "") ∧
    (∀ m, regexSearchCI hint (collapseWS s) = some m →
      (parse_price (some s) hint).2.1 = some m) ∧
    (numRun (collapseWS s).data = none → (parse_price (some s) hint).1 = none) ∧
    (∀ run, numRun (collapseWS s).data = some run →
      (parse_price (some s) hint).1 =
        pyFloatOfRun (run.filter (fun c => c != ',' && c != ' '))) ∧
    parse_price (some "1,250.00 EGP") DEFAULT_CURRENCY_HINT =
      (some (1250 : ℚ), some "EGP", "1,250.00 EGP") := by
  have hB : ratOfRun ['1', '2', '5', '0', '.', '0', '0'] = 1250 := by
    have e1 : ratOfRun ['1', '2', '5', '0', '.', '0', '0'] =
        ((natOfDigits (['1', '2', '5', '0'] ++ ['0', '0']) : ℚ) / (10 : ℚ) ^ 2) := rfl
    rw [e1, show natOfDigits (['1', '2', '5', '0'] ++ ['0', '0']) = 125000 from rfl]
    norm_num
  refine ⟨rfl, ?_, ?_, ?_, ?_, ?_⟩
  · intro hn
    simp [parse_price, hn]
  · intro m hm
    simp [parse_price, hm]
  · intro hn
    simp [parse_price, hn]
  · intro run hr
    simp [parse_price, hr]
  · rw [show parse_price (some "1,250.00 EGP") DEFAULT_CURRENCY_HINT =
      (some (ratOfRun ['1', '2', '5', '0', '.', '0', '0']), some "EGP", "1,250.00 EGP")
      from rfl, hB]

theorem claim_C4_witness :
    regexSearchCI "XYZ" (collapseWS "no currency here") = none ∧
    (parse_price (some "no currency here") "XYZ").2.1 = some "" :=
  ⟨rfl, (claim_C4 "no currency here" "XYZ").2.1 rfl⟩

/-- Claim C5, counterexample: the card loop never drops a card.  On a page
whose single card resolves to neither a product name nor a product URL, a
record with empty name and empty URL is still appended — the claim says such
a card is dropped with no record emitted. -/
theorem claim_C5_counterexample :
    process_page exCfg exFetchOkB exDomBare "t" ([], []) "u" =
      Except.ok ([exRecBare], []) ∧
    exRecBare.product_name = "" ∧ exRecBare.product_url = "" := ⟨rfl, rfl, rfl⟩

/-- Claim C5 (amended): no card is dropped — extraction emits exactly one
record per resolved card, however sparse, including cards lacking both a name
and a product URL. -/
theorem claim_C5 (d : Dom) (cfg : SiteCfg) (page_url ts : String) (cards : List Nat)
    (recs : List ProductRecord)
    (h : cards.mapM (extract_card d cfg page_url ts) = Except.ok recs) :
    recs.length = cards.length ∧
    (∀ (fetch : String → Nat → String → HttpOutcome) acc r,
      http_get (fetch page_url) 4 cfg.mobile_fallback = some r →
      get_cards d r.body cfg.list_selector = cards → cards ≠ [] →
      process_page cfg fetch d ts acc page_url = Except.ok (acc.1 ++ recs, acc.2)) := by
  refine ⟨mapM_length _ _ _ h, ?_⟩
  intro fetch acc r hr hc hne
  unfold process_page
  rw [hr]
  dsimp only
  rw [hc, if_neg hne, h]

theorem claim_C5_witness :
    ([7].mapM (extract_card exDomBare exCfg "u" "t") = Except.ok [exRecBare]) ∧
    ([exRecBare].length = ([7] : List Nat).length) :=
  ⟨rfl, (claim_C5 exDomBare exCfg "u" "t" [7] [exRecBare] rfl).1⟩

/-- Claim C6, counterexample: with `max_pages = 0` the code's `int(max_pages
or 1)` defaults the bound to 1, so "link" pagination yields one URL — more
than the claimed "at most maxPages" bound of zero. -/
theorem claim_C6_counterexample :
    iterate_pages exFetchOkB exDomBare "u" "link" "page" 1 0 "" true =
      Except.ok ["u"] ∧
    ¬((["u"] : List String).length ≤ (0 : Int).toNat) := ⟨rfl, by decide⟩

/-- Claim C6 (amended): in "link" mode, with the effective bound
`mx = maxPages` except that a zero `maxPages` is defaulted to 1
(`int(max_pages or 1)`), pagination always terminates with at most `mx`
pairwise-distinct URLs (the visited-set guard also covers a next-link
pointing back to an already-seen page such as the first); when it stops
before `mx` iterations, the last visited page either produced no usable next
URL (fetch failure, no next element, or a missing/empty `href`) or produced a
next URL already among those yielded. -/
theorem claim_C6 (fetch : String → Nat → String → HttpOutcome) (d : Dom)
    (url page_param next_selector : String) (sp mp : Int) (mf : Bool)
    (urls : List String)
    (h : iterate_pages fetch d url "link" page_param sp mp next_selector mf =
      Except.ok urls) :
    urls.Nodup ∧ urls.length ≤ (pyOrInt mp 1).toNat ∧
    (0 < (pyOrInt mp 1).toNat → urls ≠ []) ∧
    (urls.length < (pyOrInt mp 1).toNat →
      ∃ last, urls.getLast? = some last ∧
        (nextUrlOf fetch d next_selector mf last = Except.ok none ∨
         ∃ v, nextUrlOf fetch d next_selector mf last = Except.ok (some v) ∧
           v ∈ urls)) := by
  have h2 : linkGo (nextUrlOf fetch d next_selector mf) (pyOrInt mp 1).toNat [] url =
      Except.ok urls := by
    have e1 : iterate_pages fetch d url "link" page_param sp mp next_selector mf =
        linkGo (nextUrlOf fetch d next_selector mf) (pyOrInt mp 1).toNat [] url := by
      unfold iterate_pages
      rw [if_neg (by decide), if_pos rfl]
    rw [← e1]
    exact h
  obtain ⟨hnotin, hnodup, hlen, hhead, hstop⟩ :=
    linkGo_spec (nextUrlOf fetch d next_selector mf) (pyOrInt mp 1).toNat [] url urls h2
  refine ⟨hnodup, hlen, ?_, ?_⟩
  · intro hpos
    obtain ⟨t, ht⟩ := hhead hpos (by simp)
    rw [ht]
    simp
  · intro hlt
    rcases hstop hlt with hnil | ⟨last, hlast, hcond⟩
    · subst hnil
      obtain ⟨t, ht⟩ := hhead (by omega) (by simp)
      cases ht
    · refine ⟨last, hlast, ?_⟩
      rcases hcond with hc | ⟨v, hv, hvm⟩
      · exact Or.inl hc
      · refine Or.inr ⟨v, hv, ?_⟩
        rcases hvm with hvm | hvm
        · cases hvm
        · exact hvm

theorem claim_C6_witness :
    iterate_pages exFetchOkB exDomLoop "a" "link" "page" 1 5 "" true =
      Except.ok ["a"] ∧
    (["a"] : List String).Nodup ∧ (["a"] : List String).length ≤ (pyOrInt 5 1).toNat :=
  ⟨by rfl, (claim_C6 exFetchOkB exDomLoop "a" "page" "" 1 5 true ["a"] (by rfl)).1,
    (claim_C6 exFetchOkB exDomLoop "a" "page" "" 1 5 true ["a"] (by rfl)).2.1⟩

/-- Claim C7 (confirmed): `http_get` never returns as success a 200 response
whose body trips the bot-wall markers (matched case-insensitively) or is
empty — any such outcome, like a non-200 status or a transport fault, falls
through to the next attempt; after exhausting the retry count the call
returns failure; the mobile user-agent is substituted from attempt index 2
onward when the mobile fallback is enabled (and never when disabled); and on
fetch failure the caller skips the page, leaving the accumulated records
unchanged and the run alive. -/
theorem claim_C7 (env : Nat → String → HttpOutcome) (retries : Nat) (mf : Bool) :
    (∀ r, http_get env retries mf = some r →
      r.status = 200 ∧ r.body ≠ "" ∧ isBotWall r.body = false) ∧
    ((∀ a, a < retries → usableResp (env a (uaFor a mf)) = none) →
      http_get env retries mf = none) ∧
    (∀ a, 2 ≤ a → uaFor a true = MOBILE_UA) ∧
    (∀ a, uaFor a false = DESKTOP_UA) ∧
    (∀ (cfg : SiteCfg) (fetch : String → Nat → String → HttpOutcome) (d : Dom)
      (ts : String) (acc : List ProductRecord × List String) (url : String),
      http_get (fetch url) 4 cfg.mobile_fallback = none →
      process_page cfg fetch d ts acc url = Except.ok acc) := by
  refine ⟨?_, ?_, ?_, ?_, ?_⟩
  · intro r h
    obtain ⟨a, ha⟩ := httpGo_some env mf retries 0 r h
    exact usableResp_spec ha
  · intro hall
    exact httpGo_none env mf retries 0 (fun a h1 h2 => hall a (by omega))
  · intro a ha
    simp [uaFor, ha]
  · intro a
    simp [uaFor]
  · intro cfg fetch d ts acc url h
    unfold process_page
    rw [h]

theorem claim_C7_witness :
    isBotWall "one moment... Just A Moment please" = true ∧
    http_get exFetchBot 4 true = none :=
  ⟨rfl, (claim_C7 exFetchBot 4 true).2.1 (fun _ _ => rfl)⟩

/-- Claim C8, counterexample: `get_cards` takes no platform hint and consults
no named profiles.  On a page where both a WooCommerce-annotated selector
(matching card 1) and an OpenCart-annotated selector (matching card 2) match,
the spec-side resolver with `platformHint = "opencart"` picks card 2, while
the code always scans its flat default list in order and picks card 1. -/
theorem claim_C8_counterexample :
    get_cards exDomHint "b" "" = [1] ∧
    (resolveCardsSpec exDomHint "b" "" "opencart").1 = [2] ∧
    get_cards exDomHint "b" "" ≠ (resolveCardsSpec exDomHint "b" "" "opencart").1 := by
  refine ⟨?_, ?_, ?_⟩ <;> decide

/-- Claim C8 (amended): card resolution uses an explicit selector when it is
given and matches at least one element; otherwise it scans the fixed default
selector list in order and the first selector with a match wins — the
platform hint plays no role.  If nothing matches anywhere the result is the
empty list, which is not an error and causes the caller to record the page's
HTML as a diagnostic artifact. -/
theorem claim_C8 (d : Dom) (body sel : String) :
    (∀ l, d.select body sel = Except.ok l → l ≠ [] → sel ≠ "" →
      get_cards d body sel = l) ∧
    ((sel = "" ∨ d.select body sel = Except.ok [] ∨ d.select body sel = Except.error ()) →
      get_cards d body sel = defaultCards d body) ∧
    ((∀ s2 ∈ DEFAULT_LIST_SELECTORS, selOk d body s2 = []) →
      defaultCards d body = []) ∧
    (defaultCards d body ≠ [] →
      ∃ pre s2 suf, DEFAULT_LIST_SELECTORS = pre ++ s2 :: suf ∧
        selOk d body s2 = defaultCards d body ∧ ∀ s3 ∈ pre, selOk d body s3 = []) ∧
    (∀ (cfg : SiteCfg) (fetch : String → Nat → String → HttpOutcome) (ts : String)
      (acc : List ProductRecord × List String) (url : String) (r : HttpResp),
      http_get (fetch url) 4 cfg.mobile_fallback = some r →
      get_cards d r.body cfg.list_selector = [] →
      process_page cfg fetch d ts acc url = Except.ok (acc.1, acc.2 ++ [r.body])) := by
  refine ⟨?_, ?_, ?_, ?_, ?_⟩
  · intro l hl hne hs
    unfold get_cards
    dsimp only
    rw [if_pos hs]
    unfold selOk
    rw [hl]
    exact if_neg hne
  · intro hcase
    rcases hcase with hs | hok | herr
    · subst hs
      simp [get_cards]
    · simp [get_cards, selOk, hok]
    · simp [get_cards, selOk, herr]
  · intro hall
    exact firstNonEmptyCards_nil d body DEFAULT_LIST_SELECTORS hall
  · intro hne
    exact firstNonEmptyCards_first d body DEFAULT_LIST_SELECTORS hne
  · intro cfg fetch ts acc url r hr hc
    unfold process_page
    rw [hr]
    dsimp only
    rw [hc]
    show Except.ok (acc.1 ++ [], acc.2 ++ [r.body]) =
      Except.ok (acc.1, acc.2 ++ [r.body])
    rw [List.append_nil]

theorem claim_C8_witness :
    exDomHint.select "b" ".product-layout" = Except.ok [2] ∧
    get_cards exDomHint "b" ".product-layout" = [2] :=
  ⟨rfl, (claim_C8 exDomHint "b" ".product-layout").1 [2] rfl (by decide) (by decide)⟩
